import Mathlib

/-!
Verification of the text-discrimination pipeline (generation + alignment).

Shallow embedding of the Python sources:
  * `src/utils/process_generations.py` — `get_paths`, `combine_data`
  * `src/prompt_select.py`             — `load_data` (path collection part)
  * `src/modules/pipeline_fns.py`      — `create_prompt`, `completions_generator`
  * `src/generate/run_pipeline.py`     — `extract_min_max_tokens`

Pandas dataframes are modelled as a list of column names plus a list of
rows, each row an association list from column name to value (the shape a
pandas frame takes when loaded from an ndjson file).  Python exceptions
become `Except PyErr`.  Python string tests (`startswith`, `endswith`,
substring `in`) are modelled on the character lists of the strings.
-/

namespace STD

/-- A scalar cell value of a dataframe (string, integer, or NaN/null). -/
inductive Val where
  | vnull : Val
  | vint  : Int → Val
  | vstr  : String → Val
deriving DecidableEq, Repr

/-- A dataframe row: an association list from column name to value,
as produced by reading one ndjson record. -/
abbrev Row := List (String × Val)

/-- A pandas dataframe: ordered column names and ordered rows. -/
structure DF where
  cols : List String
  rows : List Row
deriving DecidableEq, Repr

/-- Python exceptions that the modelled code can raise. -/
inductive PyErr where
  | indexError : PyErr
  | keyError   : String → PyErr
  | typeError  : PyErr
  | valueError : String → PyErr
deriving DecidableEq, Repr

/-- Python `s.startswith(pre)`, on the character lists. -/
def pyStartsWith (s pre : String) : Bool := pre.data.isPrefixOf s.data

/-- Python `s.endswith(suf)`, on the character lists. -/
def pyEndsWith (s suf : String) : Bool := suf.data.isSuffixOf s.data

/-- Is `sub` a contiguous sublist of `l`? -/
def listIsInfixOf (sub : List Char) : List Char → Bool
  | [] => sub.isPrefixOf []
  | c :: t => sub.isPrefixOf (c :: t) || listIsInfixOf sub t

/-- Python `sub in s` (substring containment), on the character lists. -/
def pyInStr (sub s : String) : Bool := listIsInfixOf sub.data s.data

/-- Python `re.sub(r"suf$", "", s)` for a literal suffix `suf`:
remove one trailing occurrence of `suf` if present. -/
def stripSuffixStr (s suf : String) : String :=
  if pyEndsWith s suf then ⟨s.data.take (s.data.length - suf.data.length)⟩ else s

/-- Reading a cell: missing keys surface as NaN (`vnull`), as pandas does
when concatenating/handling records with missing fields. -/
def rowGet (r : Row) (c : String) : Val := (r.lookup c).getD .vnull

/-- Set one field of a row (pandas column assignment, row level):
drop any existing entry for the key and append the new one. -/
def setRowVal (r : Row) (c : String) (v : Val) : Row :=
  r.filter (fun e => e.1 ≠ c) ++ [(c, v)]

/-- Rename a key of a row (pandas `rename`, row level). -/
def renameRow (r : Row) (old new : String) : Row :=
  r.map (fun e => if e.1 = old then (new, e.2) else e)

/-- One column of a dataframe, as the list of its cell values
(Python `df[c]` read access). -/
def DF.col (df : DF) (c : String) : List Val := df.rows.map (fun r => rowGet r c)

/-- Pandas `df[c] = scalar`: broadcast a constant into a (possibly new)
column.  A new column name is appended at the end. -/
def DF.setColConst (df : DF) (c : String) (v : Val) : DF :=
  { cols := if c ∈ df.cols then df.cols else df.cols ++ [c],
    rows := df.rows.map (fun r => setRowVal r c v) }

/-- Pandas `df[c] = values` for a list of per-row values (used only where
the value list has exactly one element per row). -/
def DF.setColVals (df : DF) (c : String) (vs : List Val) : DF :=
  { cols := if c ∈ df.cols then df.cols else df.cols ++ [c],
    rows := (df.rows.zip vs).map (fun p => setRowVal p.1 c p.2) }

/-- Pandas `df.rename(columns={old: new})`. -/
def DF.renameCol (df : DF) (old new : String) : DF :=
  { cols := df.cols.map (fun c => if c = old then new else c),
    rows := df.rows.map (fun r => renameRow r old new) }

/-- Row prefix of a dataframe (`df.loc[:n]` on a default range index keeps
the first `n+1` rows; truncation touches rows only, never columns). -/
def DF.takeRows (df : DF) (n : Nat) : DF := { cols := df.cols, rows := df.rows.take n }

/-- Pandas `df[names]` column projection; `KeyError` when a requested
column is absent. -/
def DF.select (df : DF) (names : List String) : Except PyErr DF :=
  if names.all (fun c => c ∈ df.cols) then
    .ok { cols := names, rows := df.rows.map (fun r => names.map (fun c => (c, rowGet r c))) }
  else .error (.keyError "column not found")

/-- Pandas `df.query(...)` row filtering by a boolean row predicate. -/
def DF.filterRows (df : DF) (p : Row → Bool) : DF :=
  { cols := df.cols, rows := df.rows.filter p }

end STD

namespace STD

/-!
### Length Policy Table — `extract_min_max_tokens` (src/generate/run_pipeline.py:28-46)
-/

/-- The `valid_datasets` dict of `extract_min_max_tokens`, in insertion
order: dataset name ↦ (min tokens, max new tokens). -/
def validDatasets : List (String × (Nat × Nat)) :=
  [("dailymail_cnn", (6, 433)),
   ("stories", (112, 1055)),
   ("mrpc", (8, 47)),
   ("dailydialog", (2, 220))]

/-- `", ".join(valid_datasets.keys())`. -/
def validDatasetsStr : String := String.intercalate ", " (validDatasets.map (·.1))

/-- `extract_min_max_tokens(dataset)` from `src/generate/run_pipeline.py`:
dict lookup with a `ValueError` naming the valid set on a miss. -/
def extract_min_max_tokens (dataset : String) : Except PyErr (Nat × Nat) :=
  match validDatasets.lookup dataset with
  | some p => .ok p
  | none => .error (.valueError
      ("Invalid dataset '" ++ dataset ++ "'. Choose from " ++ validDatasetsStr))

end STD

namespace STD

/-!
### Merge and concatenation (pandas `merge`/`concat`, as used in the sources)
-/

/-- Outputs of a left join for one left row: one output per matching right
row (key column dropped from the right side), or the left row padded with
nulls for the right side's non-key columns when nothing matches. -/
def mergeOne (nonkey : List String) (rrows : List Row) (lrow : Row) : List Row :=
  let hits := rrows.filter (fun rr => rowGet rr "id" == rowGet lrow "id")
  match hits with
  | [] => [lrow ++ nonkey.map (fun c => (c, Val.vnull))]
  | _ :: _ => hits.map (fun rr => lrow ++ nonkey.map (fun c => (c, rowGet rr c)))

/-- Pandas `l.merge(r, on="id", how="left")` (column-name collisions other
than the key do not arise in the modelled calls). -/
def leftMergeOnId (l r : DF) : DF :=
  let nonkey := r.cols.filter (fun c => c ≠ "id")
  { cols := l.cols ++ nonkey.filter (fun c => c ∉ l.cols),
    rows := l.rows.flatMap (mergeOne nonkey r.rows) }

/-- Pandas `pd.concat(dfs, ignore_index=True, axis=0)`: rows are stacked
in order; the column set is the ordered union (missing cells read as NaN
through `rowGet`). -/
def concatDFs (dfs : List DF) : DF :=
  { cols := (dfs.flatMap DF.cols).eraseDups,
    rows := dfs.flatMap DF.rows }

/-!
### Schema Normalizer — loop body of `combine_data`
(src/utils/process_generations.py:68-88)
-/

/-- Python truthiness of the `subset` argument (`if subset:`); note that
`subset=0` is falsy and performs no truncation. -/
def subsetTruthy : Option Nat → Bool
  | none => false
  | some n => n ≠ 0

/-- One iteration of the `for idx, df in enumerate(ai_dfs)` loop of
`combine_data`: optional truncation (`df.loc[:subset]` keeps the first
`subset+1` rows on a default range index), detection/renaming of the
`prompt_*` and `*_completions` columns (`IndexError` when no column
matches; the first match is taken otherwise), and the left join of the
human `source` column on `id`. -/
def normalizeDF (human : DF) (subset : Option Nat) (df : DF) : Except PyErr DF := do
  let newDf := if subsetTruthy subset then df.takeRows (subset.getD 0 + 1) else df
  let promptCols := newDf.cols.filter (fun c => pyStartsWith c "prompt_")
  let promptColname ← match promptCols with
    | [] => .error .indexError
    | c :: _ => .ok c
  let newDf := newDf.setColConst "prompt_number"
    (.vstr ((promptColname.splitOn "_").getD 1 ""))
  let newDf := newDf.renameCol promptColname "prompt"
  let mdlCols := newDf.cols.filter (fun c => pyEndsWith c "_completions")
  let mdlColname ← match mdlCols with
    | [] => .error .indexError
    | c :: _ => .ok c
  let newDf := newDf.setColConst "model" (.vstr (stripSuffixStr mdlColname "_completions"))
  let newDf := newDf.renameCol mdlColname "completions"
  let humanSel ← human.select ["id", "source"]
  .ok (leftMergeOnId newDf humanSel)

/-!
### Alignment Engine — `combine_data` (src/utils/process_generations.py:55-101)
-/

/-- Result of `combine_data`: the combined table, the filtered human table
that went into it (the local `human_df` after line 93), and the final
contents of the caller's `ai_dfs` list (the loop reassigns its slots,
line 88). -/
structure CombineResult where
  combined  : DF
  humanPart : DF
  aiAfter   : List DF
deriving DecidableEq, Repr

/-- Effectful map over the AI tables, in list order, stopping at the
first raised exception — the semantics of the `for idx, df in
enumerate(ai_dfs)` loop. -/
def mapExcept (f : DF → Except PyErr DF) : List DF → Except PyErr (List DF)
  | [] => .ok []
  | d :: t => do
    let d' ← f d
    let t' ← mapExcept f t
    .ok (d' :: t')

/-- `combine_data(ai_dfs, human_df, subset)`: normalize each AI table in
place, pick the reference table `ai_dfs[1]` (`IndexError` when the list is
shorter), keep the human rows whose `id` occurs in the reference table's
`id` column (`query('id in @ai_dfs[1]["id"]')`, an error when `human_df`
has no `id` column), tag them `model="human"`, rename
`human_completions → completions`, and concatenate human-first. -/
def combine_data (ai_dfs : List DF) (human_df : DF) (subset : Option Nat := none) :
    Except PyErr CombineResult := do
  let aiNorm ← mapExcept (normalizeDF human_df subset) ai_dfs
  let ref ← match aiNorm.get? 1 with
    | some r => .ok r
    | none => .error .indexError
  if "id" ∈ human_df.cols then
    let humanF := human_df.filterRows (fun r => rowGet r "id" ∈ ref.col "id")
    let humanF := humanF.setColConst "model" (.vstr "human")
    let humanF := humanF.renameCol "human_completions" "completions"
    .ok { combined := concatDFs (humanF :: aiNorm), humanPart := humanF, aiAfter := aiNorm }
  else .error (.keyError "id")

/-!
### Path Resolver — `get_paths` (src/utils/process_generations.py:9-43)
-/

/-- A Python scalar as the `temp` argument sees it: its truthiness and its
f-string rendering (so that `1`, `1.0`, `1.5`, `"temp1"` need no float
model). -/
structure PyScalar where
  truthy : Bool
  str    : String
deriving DecidableEq, Repr

/-- Python truthiness of `prompt_number` (`if prompt_number:`); `None` and
`0` are falsy. -/
def promptTruthy : Option Int → Bool
  | none => false
  | some n => n ≠ 0

/-- Python truthiness of `temp` (`elif temp:`). -/
def tempTruthy : Option PyScalar → Bool
  | none => false
  | some t => t.truthy

/-- `get_paths` (AI-path part).  The filesystem is abstracted as
`fs : model directory name → file names in enumeration order`; a returned
path is rendered `model ++ "/" ++ file`.  The source's third branch
(`elif prompt_number and temp:`) is unreachable: the first branch already
fires whenever `prompt_number` is truthy, so only the first, second and
final `else` branch are live, exactly as below. -/
def get_paths (fs : String → List String) (models : List String) (dataset : String)
    (temp : Option PyScalar) (prompt_number : Option Int) : List String :=
  models.flatMap (fun m =>
    let files := fs m
    let chosen :=
      if promptTruthy prompt_number then
        files.filter (fun f =>
          pyStartsWith f (dataset ++ "_prompt_" ++ toString (prompt_number.getD 0)))
      else if tempTruthy temp then
        files.filter (fun f => pyEndsWith f (((temp.map PyScalar.str).getD "") ++ ".ndjson"))
      else files
    chosen.map (fun f => m ++ "/" ++ f))

/-!
### Path collection of `load_data` (src/prompt_select.py:23-31)
-/

/-- Lexicographic comparison used by Python's `sorted` on the rendered
paths. -/
def strLe (a b : String) : Bool := decide (a ≤ b)

/-- The path-collection part of `prompt_select.load_data`: walk the AI
directory (given as an association list `dir name ↦ files` in enumeration
order), keep model directories, keep files containing the dataset name,
then `sorted(...)`. -/
def load_data_paths (aiDirListing : List (String × List String)) (models : List String)
    (dataset : String) : List String :=
  ((aiDirListing.flatMap (fun p =>
      if p.1 ∈ models then
        (p.2.filter (fun f => pyInStr dataset f)).map (fun f => p.1 ++ "/" ++ f)
      else [])).mergeSort strLe)

/-!
### Prompt Builder — `create_prompt` (src/modules/pipeline_fns.py:36-62)
-/

/-- The static `prompts` template table of `create_prompt`. -/
def prompts : List (String × String) :=
  [("dailymail_cnn_1", "summarize the main points of this article: "),
   ("dailymail_cnn_2", "create a summary of the news article: "),
   ("dailymail_cnn_3", "write a short summarised text of the news article: "),
   ("stories_1", "continue the story: "),
   ("stories_2", "write a small text based on this story: "),
   ("stories_3", "complete the text: "),
   ("stories_4", "complete the story: "),
   ("mrpc_1", "paraphrase this text: "),
   ("mrpc_2", "summarize this text: "),
   ("mrpc_3", "summarize this: "),
   ("mrpc_4", "create a summary of this: "),
   ("dailydialog_1", "respond to the final sentence: "),
   ("dailydialog_2", "continue this dialog: ")]

/-- String concatenation `template + df["source"]`; a non-string source
cell is a `TypeError` in Python. -/
def promptCat (template : String) : Val → Except PyErr Val
  | .vstr s => .ok (.vstr (template ++ s))
  | _ => .error .typeError

/-- `create_prompt(df, datafile, prompt_number)`: template lookup
(`KeyError` on a miss), then `df[f"prompt_{n}"] = template + df["source"]`
— an in-place mutation of the caller's dataframe.  The second component of
the result is the caller's dataframe as the caller sees it afterwards;
the function returns that same (mutated) object. -/
def create_prompt (df : DF) (datafile : String) (prompt_number : Int) :
    Except PyErr (DF × DF) := do
  let template ← match prompts.lookup (datafile ++ "_" ++ toString prompt_number) with
    | some t => .ok t
    | none => .error (.keyError (datafile ++ "_" ++ toString prompt_number))
  if "source" ∈ df.cols then
    let vals ← (df.col "source").mapM (promptCat template)
    let newDf := df.setColVals ("prompt_" ++ toString prompt_number) vals
    .ok (newDf, newDf)
  else .error (.keyError "source")

/-!
### Generation Engine — `completions_generator` (src/modules/pipeline_fns.py:64-107)
-/

/-- `completions_generator(df, prompt_col, model, model_name, ...)`:
apply the model callable to each prompt cell in order, keep
`df[["id", prompt_col]]`, and append the completions as the column
`f"{model_name}_completions"`.  The model callable is abstracted as a
function from the prompt cell to the generated text, per the external
interface contract. -/
def completions_generator (df : DF) (prompt_col : String) (model : Val → Val)
    (model_name : String) : Except PyErr DF := do
  let completions := (df.col prompt_col).map model
  let completionsDf ← df.select ["id", prompt_col]
  .ok (completionsDf.setColVals (model_name ++ "_completions") completions)

/-- Modelled from the spec: the ndjson output sink.  File I/O is out of
scope and specified as a pure load/save contract (§1, §6), so writing a
table as newline-delimited records and re-reading it is the identity at
table level. -/
def writeReadSink (df : DF) : DF := df

/-!
### Concrete tables and listings used to instantiate the theorems
-/

/-- A well-formed raw AI table (model `m0`, prompt 1, ids 1–3). -/
def exT0 : DF :=
  { cols := ["id", "prompt_1", "m0_completions"],
    rows := [[("id", .vint 1), ("prompt_1", .vstr "p1"), ("m0_completions", .vstr "c1")],
             [("id", .vint 2), ("prompt_1", .vstr "p2"), ("m0_completions", .vstr "c2")],
             [("id", .vint 3), ("prompt_1", .vstr "p3"), ("m0_completions", .vstr "c3")]] }

/-- A well-formed raw AI table (model `m1`, prompt 2, ids 1–3); sits at
index 1 of the supplied list, so it is the alignment reference table. -/
def exT1 : DF :=
  { cols := ["id", "prompt_2", "m1_completions"],
    rows := [[("id", .vint 1), ("prompt_2", .vstr "q1"), ("m1_completions", .vstr "d1")],
             [("id", .vint 2), ("prompt_2", .vstr "q2"), ("m1_completions", .vstr "d2")],
             [("id", .vint 3), ("prompt_2", .vstr "q3"), ("m1_completions", .vstr "d3")]] }

/-- A human table whose single row has id 3. -/
def exHuman3 : DF :=
  { cols := ["id", "source", "human_completions"],
    rows := [[("id", .vint 3), ("source", .vstr "s3"), ("human_completions", .vstr "h3")]] }

/-- A human table whose single row has id 9 (matching no AI id). -/
def exHuman9 : DF :=
  { cols := ["id", "source", "human_completions"],
    rows := [[("id", .vint 9), ("source", .vstr "s9"), ("human_completions", .vstr "h9")]] }

/-- A human table with rows for ids 1 and 2. -/
def exHuman12 : DF :=
  { cols := ["id", "source", "human_completions"],
    rows := [[("id", .vint 1), ("source", .vstr "s1"), ("human_completions", .vstr "h1")],
             [("id", .vint 2), ("source", .vstr "s2"), ("human_completions", .vstr "h2")]] }

/-- A raw table with two `prompt_*` columns and one `*_completions`
column. -/
def exTwoPrompt : DF :=
  { cols := ["id", "prompt_1", "prompt_2", "m_completions"],
    rows := [[("id", .vint 1), ("prompt_1", .vstr "a"), ("prompt_2", .vstr "b"),
              ("m_completions", .vstr "c")]] }

/-- A source-document table for the prompt builder and the generator. -/
def exDocs : DF :=
  { cols := ["id", "source"],
    rows := [[("id", .vint 1), ("source", .vstr "once upon a time")]] }

/-- The state of `exDocs` after `create_prompt(df, "stories", 1)`: the
caller's table has gained the `prompt_1` column. -/
def exDocsMutated : DF :=
  { cols := ["id", "source", "prompt_1"],
    rows := [[("id", Val.vint 1), ("source", Val.vstr "once upon a time"),
      ("prompt_1", Val.vstr "continue the story: once upon a time")]] }

/-- A model directory whose enumeration order is reverse-lexicographic. -/
def exFsUnsorted : String → List String :=
  fun m => if m = "m" then ["b_temp1.ndjson", "a_temp1.ndjson"] else []

/-- A model directory holding one prompt-0 file and one temperature-1
file. -/
def exFsPrompt0 : String → List String :=
  fun m => if m = "m" then ["d_prompt_0_x.ndjson", "q_temp1.ndjson"] else []

/-- The row-level transformation the normalizer applies to one AI row
once the prompt column `c1` and completions column `c2` are fixed
(assign `prompt_number`, rename `c1 → prompt`, assign `model`, rename
`c2 → completions`); an abbreviation for the composite used in proofs. -/
def normRowG (c1 c2 : String) (r0 : Row) : Row :=
  renameRow (setRowVal (renameRow (setRowVal r0 "prompt_number"
    (Val.vstr ((c1.splitOn "_").getD 1 ""))) c1 "prompt") "model"
    (Val.vstr (stripSuffixStr c2 "_completions"))) c2 "completions"

/-- The row projection `human_df[["id", "source"]]` applies to each human
row. -/
def humanProjRow (r : Row) : Row := ["id", "source"].map (fun c => (c, rowGet r c))

/-- The table-level transformation the normalizer applies once the
prompt column `c1` and completions column `c2` are fixed (the table
analogue of `normRowG`); an abbreviation for the proofs. -/
def normChainDF (c1 c2 : String) (df : DF) : DF :=
  (((df.setColConst "prompt_number" (.vstr ((c1.splitOn "_").getD 1 ""))).renameCol c1
    "prompt").setColConst "model"
    (.vstr (stripSuffixStr c2 "_completions"))).renameCol c2 "completions"

/-- The shape of one record written by `completions_generator`:
`{id, prompt column, model-named completions column}`; an abbreviation
for the proofs about the generator. -/
def genRowShape (prompt_col mdl : String) (gen : Val → Val) (r : Row) : Row :=
  [("id", rowGet r "id"), (prompt_col, rowGet r prompt_col),
   (mdl, gen (rowGet r prompt_col))]

/-- The table written by `completions_generator`: columns
`id, prompt column, "<model>_completions"`; an abbreviation for the
proofs. -/
def genTableDF (df : DF) (prompt_col mdl : String) (gen : Val → Val) : DF :=
  { cols := ["id", prompt_col, mdl],
    rows := df.rows.map (genRowShape prompt_col mdl gen) }

/-- The projection `human_df[["id", "source"]]` as a table; an
abbreviation for the proofs. -/
def selIdSourceDF (human : DF) : DF :=
  { cols := ["id", "source"], rows := human.rows.map humanProjRow }

/-- A 150-row raw AI table with distinct ids `0..149`. -/
def exBig : DF :=
  { cols := ["id", "prompt_1", "m0_completions"],
    rows := (List.range 150).map (fun i =>
      [("id", Val.vint i), ("prompt_1", Val.vstr "p"), ("m0_completions", Val.vstr "c")]) }

/-- An AI-directory listing for `load_data`, in one enumeration order. -/
def exListing : List (String × List String) :=
  [("m", ["d_b.ndjson", "d_a.ndjson"]), ("n", ["d_c.ndjson"]), ("skip", ["d_z.ndjson"])]

/-- The same AI-directory listing in another enumeration order. -/
def exListingPerm : List (String × List String) :=
  [("skip", ["d_z.ndjson"]), ("n", ["d_c.ndjson"]), ("m", ["d_b.ndjson", "d_a.ndjson"])]

end STD

namespace STD

/-- `lookup` on a name absent from an association list yields `none`. -/
theorem lookup_eq_none_of_not_mem_keys {α : Type} [DecidableEq α] {β : Type}
    (l : List (α × β)) (a : α) (h : a ∉ l.map (·.1)) : l.lookup a = none := by
  induction l with
  | nil => rfl
  | cons e t ih =>
    simp only [List.map_cons, List.mem_cons] at h
    push_neg at h
    have hne : (a == e.1) = false := beq_eq_false_iff_ne.mpr h.1
    simp [List.lookup, hne, ih h.2]

/-- C5: for each of the four recognized dataset names, the length-policy
lookup `extract_min_max_tokens` returns its fixed
`(min_tokens, max_new_tokens)` pair, and for every other string it fails
with an error whose message names the set of valid dataset names. -/
theorem extract_min_max_tokens_policy :
    extract_min_max_tokens "dailymail_cnn" = .ok (6, 433) ∧
    extract_min_max_tokens "stories" = .ok (112, 1055) ∧
    extract_min_max_tokens "mrpc" = .ok (8, 47) ∧
    extract_min_max_tokens "dailydialog" = .ok (2, 220) ∧
    ∀ s : String, s ∉ ["dailymail_cnn", "stories", "mrpc", "dailydialog"] →
      extract_min_max_tokens s = .error (.valueError
        ("Invalid dataset '" ++ s ++ "'. Choose from " ++
          "dailymail_cnn, stories, mrpc, dailydialog")) := by
  refine ⟨rfl, rfl, rfl, rfl, fun s hs => ?_⟩
  have hkeys : validDatasets.map (·.1) = ["dailymail_cnn", "stories", "mrpc", "dailydialog"] := rfl
  have hnone : validDatasets.lookup s = none :=
    lookup_eq_none_of_not_mem_keys validDatasets s (by rw [hkeys]; exact hs)
  have hstr : validDatasetsStr = "dailymail_cnn, stories, mrpc, dailydialog" := rfl
  simp [extract_min_max_tokens, hnone, hstr]

/-- Witness for C5 at the dataset names `"stories"` and `"gpt4"`. -/
theorem extract_min_max_tokens_policy_witness :
    extract_min_max_tokens "stories" = .ok (112, 1055) ∧
    extract_min_max_tokens "gpt4" = .error (.valueError
      "Invalid dataset 'gpt4'. Choose from dailymail_cnn, stories, mrpc, dailydialog") := by
  refine ⟨extract_min_max_tokens_policy.2.1, ?_⟩
  rw [extract_min_max_tokens_policy.2.2.2.2 "gpt4" (by decide)]
  congr 1

/-- C10: `combine_data` called with a single AI table fails with an
out-of-range access when it selects the reference table `ai_dfs[1]`, even
when that single table normalizes (and hence could otherwise be aligned);
the single-table case never aligns successfully. -/
theorem combine_data_single_ai_table_index_error
    (t human : DF) (s : Option Nat) (t' : DF)
    (h : normalizeDF human s t = .ok t') :
    combine_data [t] human s = .error .indexError := by
  simp [combine_data, mapExcept, h, bind, Except.bind]

/-- Witness for C10: a concrete well-formed table and human reference. -/
theorem combine_data_single_ai_table_index_error_witness :
    combine_data [exT0] exHuman12 none = .error .indexError :=
  combine_data_single_ai_table_index_error exT0 exHuman12 none _ rfl

/-- C7 counterexample: with dataset `"d"`, a supplied (non-absent)
temperature `1` and a supplied (non-absent) prompt number `0`, `get_paths`
returns the temperature-selected file, not the prompt-number-prefix
selection (`"d_prompt_0..."`): the claim that a supplied prompt number
always shadows the temperature selector fails at prompt number 0, which
is falsy in Python. -/
theorem get_paths_prompt_zero_counterexample :
    get_paths exFsPrompt0 ["m"] "d" (some ⟨true, "1"⟩) (some 0) = ["m/q_temp1.ndjson"] ∧
    (exFsPrompt0 "m").filter (fun f => pyStartsWith f ("d" ++ "_prompt_" ++ toString (0 : Int)))
      = ["d_prompt_0_x.ndjson"] := by
  constructor <;> decide

/-- C7 (amended): whenever the supplied prompt number is truthy
(non-absent and nonzero), `get_paths` returns exactly the prompt-number
prefix selection, and the temperature selector has no effect on the
result. -/
theorem get_paths_prompt_number_precedence
    (fs : String → List String) (models : List String) (dataset : String)
    (t1 t2 : Option PyScalar) (n : Int) (hn : n ≠ 0) :
    get_paths fs models dataset t1 (some n) = get_paths fs models dataset t2 (some n) ∧
    get_paths fs models dataset t1 (some n) =
      models.flatMap (fun m =>
        ((fs m).filter (fun f =>
          pyStartsWith f (dataset ++ "_prompt_" ++ toString n))).map (fun f => m ++ "/" ++ f)) := by
  have ht : promptTruthy (some n) = true := by simp [promptTruthy, hn]
  constructor <;> simp [get_paths, ht]

/-- Looking a key up in an appended row stays in the left part while the
left part binds the key. -/
theorem lookup_append_of_isSome {r s : Row} {k : String} (h : (r.lookup k).isSome) :
    ((r ++ s).lookup k) = r.lookup k := by
  induction r with
  | nil => simp [List.lookup] at h
  | cons e t ih =>
    by_cases hk : (k == e.1) = true
    · simp [List.lookup, hk]
    · simp only [Bool.not_eq_true] at hk
      simp only [List.lookup, hk] at h ⊢
      exact ih h

/-- Looking a key up in an appended row falls through to the right part
when the left part does not bind the key. -/
theorem lookup_append_of_none {r s : Row} {k : String} (h : r.lookup k = none) :
    ((r ++ s).lookup k) = s.lookup k := by
  induction r with
  | nil => simp
  | cons e t ih =>
    by_cases hk : (k == e.1) = true
    · simp [List.lookup, hk] at h
    · simp only [Bool.not_eq_true] at hk
      simp only [List.lookup, hk] at h ⊢
      exact ih h

/-- A field assignment leaves every other field of a row unchanged. -/
theorem lookup_setRowVal_ne (r : Row) {c c' : String} (v : Val) (h : c' ≠ c) :
    (setRowVal r c v).lookup c' = r.lookup c' := by
  unfold setRowVal
  induction r with
  | nil => simp [List.lookup, beq_eq_false_iff_ne.mpr h]
  | cons e t ih =>
    by_cases he : (e.1 ≠ c : Bool) = true
    · rw [List.filter_cons, if_pos he]
      by_cases hk : (c' == e.1) = true
      · simp [List.lookup, hk]
      · simp only [Bool.not_eq_true] at hk
        simp only [List.cons_append, List.lookup, hk]
        exact ih
    · rw [List.filter_cons, if_neg he]
      have he' : e.1 = c := by simpa using he
      have hk : (c' == e.1) = false := beq_eq_false_iff_ne.mpr (he' ▸ h)
      simp only [List.lookup, hk]
      exact ih

/-- Dropping the entries for a key removes every binding of that key. -/
theorem lookup_filter_ne_self (r : Row) (c : String) :
    (r.filter (fun e => e.1 ≠ c)).lookup c = none := by
  induction r with
  | nil => rfl
  | cons e t ih =>
    by_cases he : (e.1 ≠ c : Bool) = true
    · rw [List.filter_cons, if_pos he]
      have : (c == e.1) = false := beq_eq_false_iff_ne.mpr (Ne.symm (by simpa using he))
      simp only [List.lookup, this]
      exact ih
    · rw [List.filter_cons, if_neg he]
      exact ih

/-- A field assignment sets its own field. -/
theorem lookup_setRowVal_self (r : Row) (c : String) (v : Val) :
    (setRowVal r c v).lookup c = some v := by
  unfold setRowVal
  rw [lookup_append_of_none (lookup_filter_ne_self r c)]
  simp [List.lookup]

/-- Renaming one key leaves lookups of any other key unchanged. -/
theorem lookup_renameRow_ne (r : Row) {old new c' : String} (h1 : c' ≠ old) (h2 : c' ≠ new) :
    (renameRow r old new).lookup c' = r.lookup c' := by
  unfold renameRow
  induction r with
  | nil => rfl
  | cons e t ih =>
    by_cases he : e.1 = old
    · simp only [List.map_cons, if_pos he]
      have hk1 : (c' == new) = false := beq_eq_false_iff_ne.mpr h2
      have hk2 : (c' == e.1) = false := beq_eq_false_iff_ne.mpr (he ▸ h1)
      simp only [List.lookup, hk1, hk2]
      exact ih
    · simp only [List.map_cons, if_neg he]
      by_cases hk : (c' == e.1) = true
      · simp [List.lookup, hk]
      · simp only [Bool.not_eq_true] at hk
        simp only [List.lookup, hk]
        exact ih

/-- `rowGet` version of `lookup_setRowVal_ne`. -/
theorem rowGet_setRowVal_ne (r : Row) {c c' : String} (v : Val) (h : c' ≠ c) :
    rowGet (setRowVal r c v) c' = rowGet r c' := by
  unfold rowGet
  rw [lookup_setRowVal_ne r v h]

/-- `rowGet` version of `lookup_renameRow_ne`. -/
theorem rowGet_renameRow_ne (r : Row) {old new c' : String} (h1 : c' ≠ old) (h2 : c' ≠ new) :
    rowGet (renameRow r old new) c' = rowGet r c' := by
  unfold rowGet
  rw [lookup_renameRow_ne r h1 h2]

/-- `rowGet` version of `lookup_append_of_isSome`. -/
theorem rowGet_append_of_isSome {r s : Row} {k : String} (h : (r.lookup k).isSome) :
    rowGet (r ++ s) k = rowGet r k := by
  unfold rowGet
  rw [lookup_append_of_isSome h]

/-- Lookup skips an entry with a different key. -/
theorem lookup_cons_ne {k : String} {e : String × Val} {t : Row}
    (h : (k == e.1) = false) : ((e :: t).lookup k) = t.lookup k := by
  simp [List.lookup, h]

/-- Lookup hits an entry with the same key. -/
theorem lookup_cons_self {k : String} {v : Val} {t : Row} :
    (((k, v) :: t).lookup k) = some v := by
  simp [List.lookup]

/-- Two strings on which a Boolean predicate disagrees are different. -/
theorem ne_of_pred_ne (p : String → Bool) {a b : String}
    (ha : p a = true) (hb : p b = false) : a ≠ b := fun h => by
  rw [h, hb] at ha
  exact Bool.false_ne_true ha

/-- Appending a suffix makes `pyEndsWith` true. -/
theorem pyEndsWith_append_self (a b : String) : pyEndsWith (a ++ b) b = true := by
  unfold pyEndsWith
  rw [String.data_append, List.isSuffixOf_iff_suffix]
  exact List.suffix_append a.data b.data

/-- Stripping the suffix just appended returns the original string. -/
theorem stripSuffixStr_append (a b : String) : stripSuffixStr (a ++ b) b = a := by
  unfold stripSuffixStr
  rw [if_pos (pyEndsWith_append_self a b)]
  apply String.ext
  show ((a ++ b).data.take ((a ++ b).data.length - b.data.length)) = a.data
  rw [String.data_append, List.length_append]
  rw [show a.data.length + b.data.length - b.data.length = a.data.length from by omega]
  exact List.take_left a.data b.data

/-- Renaming `old` to a previously unbound name rebinds lookups of the
new name to the old one. -/
theorem lookup_renameRow_new (r : Row) (old new : String) (h : r.lookup new = none) :
    (renameRow r old new).lookup new = r.lookup old := by
  unfold renameRow
  induction r with
  | nil => rfl
  | cons e t ih =>
    by_cases he : e.1 = old
    · simp only [List.map_cons, if_pos he]
      have : (new == new) = true := beq_self_eq_true new
      simp only [List.lookup, this]
      rw [show (old == e.1) = true from beq_iff_eq.mpr he.symm]
    · simp only [List.map_cons, if_neg he]
      simp only [List.lookup] at h ⊢
      cases hk : (new == e.1) with
      | true => rw [hk] at h; simp at h
      | false =>
        rw [hk] at h
        rw [show (old == e.1) = false from beq_eq_false_iff_ne.mpr (fun hh => he hh.symm)]
        exact ih h

/-- A left join emits, for every left row, at least one output row that
extends it on the right. -/
theorem mergeOne_exists_mem (nk : List String) (rr : List Row) (lrow : Row) :
    ∃ ext, (lrow ++ ext) ∈ mergeOne nk rr lrow := by
  unfold mergeOne
  cases hh : rr.filter (fun x => rowGet x "id" == rowGet lrow "id") with
  | nil => exact ⟨nk.map (fun c => (c, Val.vnull)), by simp⟩
  | cons x xs =>
    refine ⟨nk.map (fun c => (c, rowGet x c)), ?_⟩
    simp

/-- When at most one right row matches, a left join emits exactly one
output row per left row. -/
theorem mergeOne_singleton (nk : List String) (rr : List Row) (lrow : Row)
    (h : (rr.filter (fun x => rowGet x "id" == rowGet lrow "id")).length ≤ 1) :
    ∃ ext, mergeOne nk rr lrow = [lrow ++ ext] := by
  unfold mergeOne
  cases hh : rr.filter (fun x => rowGet x "id" == rowGet lrow "id") with
  | nil => exact ⟨nk.map (fun c => (c, Val.vnull)), rfl⟩
  | cons x xs =>
    rw [hh] at h
    cases xs with
    | nil => exact ⟨nk.map (fun c => (c, rowGet x c)), by simp⟩
    | cons y ys => simp at h

/-- A flatMap whose per-element output is a single extension of the
element preserves length and every key the element binds. -/
theorem flatMap_singleton_facts (l : List Row) (f : Row → List Row) (k : String)
    (h : ∀ r ∈ l, ∃ ext, f r = [r ++ ext] ∧ (r.lookup k).isSome) :
    (l.flatMap f).length = l.length ∧
    (l.flatMap f).map (fun r => rowGet r k) = l.map (fun r => rowGet r k) := by
  induction l with
  | nil => simp
  | cons r t ih =>
    obtain ⟨ext, hf, hsome⟩ := h r (by simp)
    have iht := ih (fun x hx => h x (by simp [hx]))
    constructor
    · simp [hf, iht.1]
    · simp [hf, iht.2, rowGet_append_of_isSome hsome]

/-- A column present before a constant-column assignment is present
afterwards. -/
theorem mem_cols_setColConst (df : DF) (c : String) (v : Val) {x : String}
    (h : x ∈ df.cols) : x ∈ (df.setColConst c v).cols := by
  unfold DF.setColConst
  dsimp only
  split
  · exact h
  · exact List.mem_append_left _ h

/-- A column different from the renamed one survives a rename. -/
theorem mem_cols_renameCol_of_ne (df : DF) {old new x : String}
    (h : x ∈ df.cols) (hne : x ≠ old) : x ∈ (df.renameCol old new).cols := by
  unfold DF.renameCol
  exact List.mem_map.mpr ⟨x, h, by rw [if_neg hne]⟩

/-- Renaming an existing column makes the new name present. -/
theorem mem_cols_renameCol_new (df : DF) {old : String} (new : String)
    (h : old ∈ df.cols) : new ∈ (df.renameCol old new).cols := by
  unfold DF.renameCol
  exact List.mem_map.mpr ⟨old, h, by rw [if_pos rfl]⟩

/-- After renaming `old` to a different name, `old` is gone. -/
theorem old_not_mem_cols_renameCol (df : DF) {old new : String} (hne : new ≠ old) :
    old ∉ (df.renameCol old new).cols := by
  unfold DF.renameCol
  intro hmem
  obtain ⟨c, _, hc⟩ := List.mem_map.mp hmem
  by_cases h : c = old
  · rw [if_pos h] at hc
    exact hne hc
  · rw [if_neg h] at hc
    exact h hc

/-- A column of the left table is a column of a left join. -/
theorem mem_cols_leftMerge (l r : DF) {x : String} (h : x ∈ l.cols) :
    x ∈ (leftMergeOnId l r).cols :=
  List.mem_append_left _ h

/-- The `*_completions` matches remaining after the `prompt_number`
assignment and the `prompt` rename are the raw matches other than the
renamed prompt column. -/
theorem filter_compl_after_prompt_steps (df' : DF) (c1 : String) (v : Val)
    (hc1 : c1 ∈ df'.cols) :
    ((df'.setColConst "prompt_number" v).renameCol c1 "prompt").cols.filter
        (fun c => pyEndsWith c "_completions") =
      (df'.cols.filter (fun c => pyEndsWith c "_completions")).filter
        (fun c => c ≠ c1) := by
  unfold DF.setColConst DF.renameCol
  dsimp only
  have hmain : ∀ l : List String,
      ((l.map (fun c => if c = c1 then "prompt" else c)).filter
        (fun c => pyEndsWith c "_completions")) =
      (l.filter (fun c => pyEndsWith c "_completions")).filter (fun c => c ≠ c1) := by
    intro l
    rw [List.filter_map]
    have hpt : ∀ c ∈ l,
        ((fun c => pyEndsWith c "_completions") ∘ fun c => if c = c1 then "prompt" else c) c =
        (fun c => decide (c ≠ c1) && pyEndsWith c "_completions") c := by
      intro c _
      by_cases h : c = c1
      · subst h
        simp only [Function.comp_apply, if_pos rfl]
        simp [pyEndsWith]
        decide
      · simp [h]
    rw [List.filter_congr hpt]
    rw [← List.filter_filter]
    have himg : ∀ c ∈ (l.filter (fun c => pyEndsWith c "_completions")).filter
        (fun c => decide (c ≠ c1)),
        (fun c => if c = c1 then "prompt" else c) c = id c := by
      intro c hc
      have hne' : c ≠ c1 := by simpa using (List.mem_filter.mp hc).2
      show (if c = c1 then "prompt" else c) = id c
      rw [if_neg hne']
      rfl
    rw [List.map_congr_left himg, List.map_id]
  split
  · exact hmain df'.cols
  · rename_i hpn
    rw [List.map_append, List.filter_append, hmain df'.cols]
    have hc1pn : c1 ≠ "prompt_number" := fun h => hpn (h ▸ hc1)
    have hnil : (["prompt_number"].map (fun c => if c = c1 then "prompt" else c)).filter
        (fun c => pyEndsWith c "_completions") = [] := by
      rw [show (["prompt_number"].map (fun c => if c = c1 then "prompt" else c)) =
          ["prompt_number"] from by rw [List.map_cons, if_neg (Ne.symm hc1pn)]; rfl]
      rfl
    rw [hnil, List.append_nil]

/-- A bound key stays bound through a field assignment on another key. -/
theorem lookup_isSome_setRowVal (r : Row) {c k : String} (v : Val) (h : k ≠ c)
    (hs : (r.lookup k).isSome) : ((setRowVal r c v).lookup k).isSome := by
  rw [lookup_setRowVal_ne r v h]
  exact hs

/-- A bound key stays bound through a rename of other keys. -/
theorem lookup_isSome_renameRow (r : Row) {old new k : String}
    (h1 : k ≠ old) (h2 : k ≠ new) (hs : (r.lookup k).isSome) :
    ((renameRow r old new).lookup k).isSome := by
  rw [lookup_renameRow_ne r h1 h2]
  exact hs

/-- C8: row-count truncation in the normalizer is a fixed prefix:
normalizing a 150-row raw table with `subset = 99` (the prompt-selection
setting) keeps exactly the first 100 rows — `df.loc[:99]` is inclusive —
in their original order, as witnessed by the id column; being a pure
function of its inputs, the step is deterministic (same inputs, same
rows), never a random sample. -/
theorem normalize_truncation_first_rows
    (t human out : DF)
    (h150 : t.rows.length = 150)
    (hok : normalizeDF human (some 99) t = .ok out)
    (huniq : ∀ v, (human.rows.countP (fun r => rowGet r "id" == v)) ≤ 1)
    (hid : ∀ r ∈ t.rows, (r.lookup "id").isSome) :
    out.rows.length = 100 ∧
    out.col "id" = (t.rows.take 100).map (fun r => rowGet r "id") := by
  unfold normalizeDF at hok
  rw [show (if subsetTruthy (some 99) then t.takeRows ((some 99).getD 0 + 1) else t)
      = t.takeRows 100 from rfl] at hok
  simp only [bind, Except.bind] at hok
  cases hpc : (t.takeRows 100).cols.filter (fun c => pyStartsWith c "prompt_") with
  | nil => rw [hpc] at hok; simp at hok
  | cons c1 r1 =>
  rw [hpc] at hok
  simp only [] at hok
  have hmemf1 : c1 ∈ (t.takeRows 100).cols.filter (fun c => pyStartsWith c "prompt_") := by
    rw [hpc]
    exact List.mem_cons_self c1 r1
  have hc1start : pyStartsWith c1 "prompt_" = true := (List.mem_filter.mp hmemf1).2
  have hc1id : ("id" : String) ≠ c1 := fun h => by
    rw [← h] at hc1start
    exact absurd hc1start (by decide)
  cases hmc : (((t.takeRows 100).setColConst "prompt_number"
      (Val.vstr ((c1.splitOn "_").getD 1 ""))).renameCol c1 "prompt").cols.filter
      (fun c => pyEndsWith c "_completions") with
  | nil => rw [hmc] at hok; simp at hok
  | cons c2 r2 =>
  rw [hmc] at hok
  simp only [] at hok
  have hmemf2 : c2 ∈ (((t.takeRows 100).setColConst "prompt_number"
      (Val.vstr ((c1.splitOn "_").getD 1 ""))).renameCol c1 "prompt").cols.filter
      (fun c => pyEndsWith c "_completions") := by
    rw [hmc]
    exact List.mem_cons_self c2 r2
  have hc2end : pyEndsWith c2 "_completions" = true := (List.mem_filter.mp hmemf2).2
  have hc2id : ("id" : String) ≠ c2 := fun h => by
    rw [← h] at hc2end
    exact absurd hc2end (by decide)
  by_cases hall : (["id", "source"].all (fun c => c ∈ human.cols)) = true
  · rw [show human.select ["id", "source"] = .ok
        { cols := ["id", "source"], rows := human.rows.map humanProjRow }
        from by unfold DF.select humanProjRow; rw [if_pos hall]] at hok
    simp only [Except.ok.injEq] at hok
    -- per-row id facts for the normalized left rows
    have hrid : ∀ r0 ∈ t.rows.take 100,
        rowGet (normRowG c1 c2 r0) "id" = rowGet r0 "id" := by
      intro r0 _
      unfold normRowG
      rw [rowGet_renameRow_ne _ hc2id (by decide),
        rowGet_setRowVal_ne _ _ (by decide),
        rowGet_renameRow_ne _ hc1id (by decide),
        rowGet_setRowVal_ne _ _ (by decide)]
    have hBrows : (((((t.takeRows 100).setColConst "prompt_number"
        (Val.vstr ((c1.splitOn "_").getD 1 ""))).renameCol c1 "prompt").setColConst "model"
        (Val.vstr (stripSuffixStr c2 "_completions"))).renameCol c2 "completions").rows
        = (t.rows.take 100).map (normRowG c1 c2) := by
      simp only [DF.renameCol, DF.setColConst, DF.takeRows, List.map_map]
      rfl
    have hmerge_rows : (leftMergeOnId
        (((((t.takeRows 100).setColConst "prompt_number"
          (Val.vstr ((c1.splitOn "_").getD 1 ""))).renameCol c1 "prompt").setColConst "model"
          (Val.vstr (stripSuffixStr c2 "_completions"))).renameCol c2 "completions")
        { cols := ["id", "source"], rows := human.rows.map humanProjRow }).rows
        = ((t.rows.take 100).map (normRowG c1 c2)).flatMap
            (mergeOne ["source"] (human.rows.map humanProjRow)) := by
      unfold leftMergeOnId
      dsimp only
      rw [hBrows, show List.filter (fun c => c ≠ "id") ["id", "source"] = ["source"]
        from by decide]
    have hsingle : ∀ r ∈ (t.rows.take 100).map (normRowG c1 c2),
        ∃ ext, mergeOne ["source"] (human.rows.map humanProjRow) r = [r ++ ext] ∧
          (r.lookup "id").isSome := by
      intro r hr
      obtain ⟨r0, hr0, rfl⟩ := List.mem_map.mp hr
      have hmemt : r0 ∈ t.rows := List.mem_of_mem_take hr0
      have hsome : ((normRowG c1 c2 r0).lookup "id").isSome := by
        unfold normRowG
        exact lookup_isSome_renameRow _ hc2id (by decide)
          (lookup_isSome_setRowVal _ _ (by decide)
            (lookup_isSome_renameRow _ hc1id (by decide)
              (lookup_isSome_setRowVal _ _ (by decide) (hid r0 hmemt))))
      have hcnt : ((human.rows.map humanProjRow).filter
          (fun x => rowGet x "id" == rowGet (normRowG c1 c2 r0) "id")).length ≤ 1 := by
        rw [← List.countP_eq_length_filter, List.countP_map]
        refine le_trans (le_of_eq (List.countP_congr (fun r' _ => ?_)))
          (huniq (rowGet (normRowG c1 c2 r0) "id"))
        show ((fun x => rowGet x "id" == rowGet (normRowG c1 c2 r0) "id") ∘ humanProjRow) r'
            = true ↔ (rowGet r' "id" == rowGet (normRowG c1 c2 r0) "id") = true
        rw [Function.comp_apply, show rowGet (humanProjRow r') "id" = rowGet r' "id" from by
          simp [humanProjRow, rowGet, List.lookup]]
      obtain ⟨ext, hext⟩ := mergeOne_singleton _ _ _ hcnt
      exact ⟨ext, hext, hsome⟩
    obtain ⟨hlen, hcolid⟩ := flatMap_singleton_facts _ _ "id" hsingle
    subst hok
    constructor
    · rw [hmerge_rows, hlen]
      simp [List.length_take, h150]
    · unfold DF.col
      rw [hmerge_rows, hcolid, List.map_map]
      exact List.map_congr_left (fun r0 hr0 => hrid r0 hr0)
  · rw [show human.select ["id", "source"] = .error (.keyError "column not found")
        from by unfold DF.select; rw [if_neg hall]] at hok
    simp at hok

/-- Witness for C8: the concrete 150-row table truncates to its first
100 rows. -/
theorem normalize_truncation_first_rows_witness :
    ∃ out, normalizeDF exHuman12 (some 99) exBig = .ok out ∧
      out.rows.length = 100 ∧
      out.col "id" = (exBig.rows.take 100).map (fun r => rowGet r "id") := by
  have h150 : exBig.rows.length = 150 := rfl
  have huniq : ∀ v, (exHuman12.rows.countP (fun r => rowGet r "id" == v)) ≤ 1 := by
    intro v
    by_cases h1 : (Val.vint 1 == v) = true
    · rw [← eq_of_beq h1]
      decide
    · by_cases h2 : (Val.vint 2 == v) = true
      · rw [← eq_of_beq h2]
        decide
      · have hz : exHuman12.rows.countP (fun r => rowGet r "id" == v) = 0 := by
          refine List.countP_eq_zero.mpr (fun r hr => ?_)
          have : r = [("id", Val.vint 1), ("source", Val.vstr "s1"),
              ("human_completions", Val.vstr "h1")] ∨
              r = [("id", Val.vint 2), ("source", Val.vstr "s2"),
              ("human_completions", Val.vstr "h2")] := by
            simpa [exHuman12] using hr
          rcases this with h | h <;> subst h <;>
            simp [rowGet, List.lookup, h1, h2]
        rw [hz]
        exact Nat.zero_le 1
  have hid : ∀ r ∈ exBig.rows, (r.lookup "id").isSome := by
    intro r hr
    have hr' : r ∈ (List.range 150).map (fun i =>
        ([("id", Val.vint i), ("prompt_1", Val.vstr "p"),
          ("m0_completions", Val.vstr "c")] : Row)) := hr
    obtain ⟨i, _, rfl⟩ := List.mem_map.mp hr'
    rfl
  obtain ⟨out, hok⟩ : ∃ out, normalizeDF exHuman12 (some 99) exBig = .ok out := ⟨_, rfl⟩
  exact ⟨out, hok, normalize_truncation_first_rows exBig exHuman12 out h150 hok huniq hid⟩

/-- C4: a record produced by the generation engine for a
`prompt_*`-named prompt column, written through the ndjson sink and
re-read, then passed through the schema normalizer, yields for every
source row an output record with the same id, the same prompt text, the
same generated completions text, and `model` equal to the model name it
was generated under. -/
theorem generation_normalization_round_trip
    (df human : DF) (gen : Val → Val) (model_name prompt_col : String)
    (h1 : pyStartsWith prompt_col "prompt_" = true)
    (h2 : pyEndsWith prompt_col "_completions" = false)
    (h3 : prompt_col ≠ "prompt_number")
    (h4 : "id" ∈ df.cols) (h5 : prompt_col ∈ df.cols)
    (h6 : "id" ∈ human.cols) (h7 : "source" ∈ human.cols) :
    ∃ g out, completions_generator df prompt_col gen model_name = .ok g ∧
      normalizeDF human none (writeReadSink g) = .ok out ∧
      ∀ r ∈ df.rows, ∃ r' ∈ out.rows,
        rowGet r' "id" = rowGet r "id" ∧
        rowGet r' "prompt" = rowGet r prompt_col ∧
        rowGet r' "completions" = gen (rowGet r prompt_col) ∧
        rowGet r' "model" = .vstr model_name := by
  -- name disequalities driven by the column-name conventions
  have hmdl : pyEndsWith (model_name ++ "_completions") "_completions" = true :=
    pyEndsWith_append_self model_name "_completions"
  have hmdl_id : model_name ++ "_completions" ≠ "id" :=
    ne_of_pred_ne (fun s => pyEndsWith s "_completions") hmdl (by decide)
  have hmdl_pc : model_name ++ "_completions" ≠ prompt_col :=
    ne_of_pred_ne (fun s => pyEndsWith s "_completions") hmdl h2
  have hmdl_pn : model_name ++ "_completions" ≠ "prompt_number" :=
    ne_of_pred_ne (fun s => pyEndsWith s "_completions") hmdl (by decide)
  have hmdl_prompt : model_name ++ "_completions" ≠ "prompt" :=
    ne_of_pred_ne (fun s => pyEndsWith s "_completions") hmdl (by decide)
  have hmdl_model : model_name ++ "_completions" ≠ "model" :=
    ne_of_pred_ne (fun s => pyEndsWith s "_completions") hmdl (by decide)
  have hmdl_compl : model_name ++ "_completions" ≠ "completions" :=
    ne_of_pred_ne (fun s => pyEndsWith s "_completions") hmdl (by decide)
  have hpc_id : prompt_col ≠ "id" :=
    ne_of_pred_ne (fun s => pyStartsWith s "prompt_") h1 (by decide)
  have hpc_prompt : prompt_col ≠ "prompt" :=
    ne_of_pred_ne (fun s => pyStartsWith s "prompt_") h1 (by decide)
  have hpc_compl : prompt_col ≠ "completions" :=
    ne_of_pred_ne (fun s => pyStartsWith s "prompt_") h1 (by decide)
  have hpc_model : prompt_col ≠ "model" :=
    ne_of_pred_ne (fun s => pyStartsWith s "prompt_") h1 (by decide)
  -- the generator's output table
  have hall : (["id", prompt_col].all (fun c => c ∈ df.cols)) = true := by simp [h4, h5]
  have hnotmem : (model_name ++ "_completions") ∉ ["id", prompt_col] := by
    simp [hmdl_id, hmdl_pc]
  have hg : completions_generator df prompt_col gen model_name = .ok
      (genTableDF df prompt_col (model_name ++ "_completions") gen) := by
    unfold completions_generator
    simp only [bind, Except.bind]
    unfold DF.select
    rw [if_pos hall]
    simp only [Except.ok.injEq]
    unfold DF.setColVals DF.col genTableDF
    congr 1
    · rw [if_neg hnotmem]
      rfl
    · rw [List.map_map, List.zip_map', List.map_map]
      refine List.map_congr_left (fun r _ => ?_)
      show setRowVal [("id", rowGet r "id"), (prompt_col, rowGet r prompt_col)]
        (model_name ++ "_completions") (gen (rowGet r prompt_col)) = _
      unfold setRowVal
      rw [List.filter_cons, if_pos (decide_eq_true (Ne.symm hmdl_id)),
        List.filter_cons, if_pos (decide_eq_true (Ne.symm hmdl_pc)), List.filter_nil]
      rfl
  -- the normalizer applied to the re-read generator output
  have hall2 : (["id", "source"].all (fun c => c ∈ human.cols)) = true := by simp [h6, h7]
  have hpn_notmem : "prompt_number" ∉ ["id", prompt_col, model_name ++ "_completions"] := by
    simp [Ne.symm h3, Ne.symm hmdl_pn]
  have hcols1 : ((genTableDF df prompt_col (model_name ++ "_completions") gen).setColConst
      "prompt_number" (.vstr ((prompt_col.splitOn "_").getD 1 ""))).cols
      = ["id", prompt_col, model_name ++ "_completions", "prompt_number"] := by
    unfold DF.setColConst genTableDF
    dsimp only
    rw [if_neg hpn_notmem]
    rfl
  have hcols2 : (((genTableDF df prompt_col (model_name ++ "_completions") gen).setColConst
      "prompt_number" (.vstr ((prompt_col.splitOn "_").getD 1 ""))).renameCol
      prompt_col "prompt").cols
      = ["id", "prompt", model_name ++ "_completions", "prompt_number"] := by
    unfold DF.renameCol
    dsimp only
    rw [hcols1]
    rw [List.map_cons, if_neg (Ne.symm hpc_id), List.map_cons, if_pos rfl,
      List.map_cons, if_neg hmdl_pc, List.map_cons, if_neg (Ne.symm h3), List.map_nil]
  have hfilt2 : (["id", "prompt", model_name ++ "_completions", "prompt_number"]).filter
      (fun c => pyEndsWith c "_completions") = [model_name ++ "_completions"] := by
    rw [List.filter_cons, if_neg (by decide), List.filter_cons, if_neg (by decide),
      List.filter_cons, if_pos hmdl, List.filter_cons, if_neg (by decide), List.filter_nil]
  have hnorm : normalizeDF human none
      (writeReadSink (genTableDF df prompt_col (model_name ++ "_completions") gen))
      = .ok (leftMergeOnId
        (normChainDF prompt_col (model_name ++ "_completions")
          (genTableDF df prompt_col (model_name ++ "_completions") gen))
        (selIdSourceDF human)) := by
    unfold writeReadSink normalizeDF
    simp only [bind, Except.bind]
    rw [show (if subsetTruthy none
        then (genTableDF df prompt_col (model_name ++ "_completions") gen).takeRows
          ((none : Option Nat).getD 0 + 1)
        else genTableDF df prompt_col (model_name ++ "_completions") gen)
      = genTableDF df prompt_col (model_name ++ "_completions") gen from rfl]
    rw [show ((genTableDF df prompt_col (model_name ++ "_completions") gen).cols.filter
      (fun c => pyStartsWith c "prompt_"))
      = prompt_col :: List.filter (fun c => pyStartsWith c "prompt_")
          [model_name ++ "_completions"] from by
      show List.filter (fun c => pyStartsWith c "prompt_")
        ["id", prompt_col, model_name ++ "_completions"] = _
      rw [List.filter_cons, if_neg (by decide), List.filter_cons, if_pos h1]]
    simp only []
    rw [show (((genTableDF df prompt_col (model_name ++ "_completions") gen).setColConst
      "prompt_number" (.vstr ((prompt_col.splitOn "_").getD 1 ""))).renameCol
      prompt_col "prompt").cols.filter (fun c => pyEndsWith c "_completions")
      = [model_name ++ "_completions"] from by
      rw [hcols2, hfilt2]]
    simp only []
    rw [show human.select ["id", "source"] = .ok (selIdSourceDF human) from by
      unfold DF.select selIdSourceDF humanProjRow
      rw [if_pos hall2]]
    rfl
  refine ⟨_, _, hg, hnorm, ?_⟩
  -- rows of the normalized left table
  have hBrows : (normChainDF prompt_col (model_name ++ "_completions")
      (genTableDF df prompt_col (model_name ++ "_completions") gen)).rows
      = df.rows.map (fun r => normRowG prompt_col (model_name ++ "_completions")
          (genRowShape prompt_col (model_name ++ "_completions") gen r)) := by
    simp only [normChainDF, genTableDF, DF.renameCol, DF.setColConst, List.map_map]
    rfl
  intro r hr
  -- the four lookups on the transformed row
  have hbase_id : ((genRowShape prompt_col (model_name ++ "_completions") gen r).lookup "id")
      = some (rowGet r "id") := by
    unfold genRowShape
    exact lookup_cons_self
  have hbase_pc : ((genRowShape prompt_col (model_name ++ "_completions") gen r).lookup
      prompt_col) = some (rowGet r prompt_col) := by
    unfold genRowShape
    rw [lookup_cons_ne (beq_eq_false_iff_ne.mpr hpc_id), lookup_cons_self]
  have hbase_mdl : ((genRowShape prompt_col (model_name ++ "_completions") gen r).lookup
      (model_name ++ "_completions")) = some (gen (rowGet r prompt_col)) := by
    unfold genRowShape
    rw [lookup_cons_ne (beq_eq_false_iff_ne.mpr hmdl_id),
      lookup_cons_ne (beq_eq_false_iff_ne.mpr hmdl_pc), lookup_cons_self]
  have hbase_prompt : ((genRowShape prompt_col (model_name ++ "_completions") gen r).lookup
      "prompt") = none := by
    unfold genRowShape
    rw [lookup_cons_ne (show (("prompt" : String) == "id") = false from by decide),
      lookup_cons_ne (beq_eq_false_iff_ne.mpr (Ne.symm hpc_prompt)),
      lookup_cons_ne (beq_eq_false_iff_ne.mpr (Ne.symm hmdl_prompt))]
    rfl
  have hbase_compl : ((genRowShape prompt_col (model_name ++ "_completions") gen r).lookup
      "completions") = none := by
    unfold genRowShape
    rw [lookup_cons_ne (show (("completions" : String) == "id") = false from by decide),
      lookup_cons_ne (beq_eq_false_iff_ne.mpr (Ne.symm hpc_compl)),
      lookup_cons_ne (beq_eq_false_iff_ne.mpr (Ne.symm hmdl_compl))]
    rfl
  have hq_id : ((normRowG prompt_col (model_name ++ "_completions")
      (genRowShape prompt_col (model_name ++ "_completions") gen r)).lookup "id")
      = some (rowGet r "id") := by
    unfold normRowG
    rw [lookup_renameRow_ne _ (Ne.symm hmdl_id) (by decide),
      lookup_setRowVal_ne _ _ (by decide),
      lookup_renameRow_ne _ (Ne.symm hpc_id) (by decide),
      lookup_setRowVal_ne _ _ (by decide), hbase_id]
  have hq_prompt : ((normRowG prompt_col (model_name ++ "_completions")
      (genRowShape prompt_col (model_name ++ "_completions") gen r)).lookup "prompt")
      = some (rowGet r prompt_col) := by
    unfold normRowG
    rw [lookup_renameRow_ne _ (Ne.symm hmdl_prompt) (by decide),
      lookup_setRowVal_ne _ _ (by decide)]
    rw [lookup_renameRow_new _ _ _ (by
      rw [lookup_setRowVal_ne _ _ (by decide)]
      exact hbase_prompt)]
    rw [lookup_setRowVal_ne _ _ h3, hbase_pc]
  have hq_compl : ((normRowG prompt_col (model_name ++ "_completions")
      (genRowShape prompt_col (model_name ++ "_completions") gen r)).lookup "completions")
      = some (gen (rowGet r prompt_col)) := by
    unfold normRowG
    rw [lookup_renameRow_new _ _ _ (by
      rw [lookup_setRowVal_ne _ _ (by decide),
        lookup_renameRow_ne _ (Ne.symm hpc_compl) (by decide),
        lookup_setRowVal_ne _ _ (by decide)]
      exact hbase_compl)]
    rw [lookup_setRowVal_ne _ _ hmdl_model,
      lookup_renameRow_ne _ hmdl_pc hmdl_prompt,
      lookup_setRowVal_ne _ _ hmdl_pn, hbase_mdl]
  have hq_model : ((normRowG prompt_col (model_name ++ "_completions")
      (genRowShape prompt_col (model_name ++ "_completions") gen r)).lookup "model")
      = some (.vstr (stripSuffixStr (model_name ++ "_completions") "_completions")) := by
    unfold normRowG
    rw [lookup_renameRow_ne _ (Ne.symm hmdl_model) (by decide), lookup_setRowVal_self]
  -- one merged output row per source row
  obtain ⟨ext, hext⟩ := mergeOne_exists_mem
    (List.filter (fun c => c ≠ "id") ["id", "source"])
    (human.rows.map humanProjRow)
    (normRowG prompt_col (model_name ++ "_completions")
      (genRowShape prompt_col (model_name ++ "_completions") gen r))
  refine ⟨normRowG prompt_col (model_name ++ "_completions")
      (genRowShape prompt_col (model_name ++ "_completions") gen r) ++ ext, ?_, ?_, ?_, ?_, ?_⟩
  · show _ ∈ (leftMergeOnId _ _).rows
    unfold leftMergeOnId
    dsimp only
    rw [hBrows]
    exact List.mem_flatMap.mpr ⟨_, List.mem_map.mpr ⟨r, hr, rfl⟩, hext⟩
  · rw [rowGet_append_of_isSome (by rw [hq_id]; rfl)]
    unfold rowGet
    rw [hq_id]
    rfl
  · rw [rowGet_append_of_isSome (by rw [hq_prompt]; rfl)]
    unfold rowGet
    rw [hq_prompt]
    rfl
  · rw [rowGet_append_of_isSome (by rw [hq_compl]; rfl)]
    unfold rowGet
    rw [hq_compl]
    rfl
  · rw [rowGet_append_of_isSome (by rw [hq_model]; rfl)]
    unfold rowGet
    rw [hq_model, stripSuffixStr_append]
    rfl

/-- Witness for C4: round trip on a concrete table, model `"beluga"`,
prompt column `"prompt_1"`. -/
theorem generation_normalization_round_trip_witness :
    ∃ g out, completions_generator exT0 "prompt_1" (fun v => v) "beluga" = .ok g ∧
      normalizeDF exHuman12 none (writeReadSink g) = .ok out ∧
      ∀ r ∈ exT0.rows, ∃ r' ∈ out.rows,
        rowGet r' "id" = rowGet r "id" ∧
        rowGet r' "prompt" = rowGet r "prompt_1" ∧
        rowGet r' "completions" = (fun v => v) (rowGet r "prompt_1") ∧
        rowGet r' "model" = .vstr "beluga" :=
  generation_normalization_round_trip exT0 exHuman12 (fun v => v) "beluga" "prompt_1"
    (by decide) (by decide) (by decide) (by decide) (by decide) (by decide) (by decide)

/-- C3 (amended): the normalization step fails (with an out-of-range
access, the source's `[0]` on an empty match list) exactly on *zero*
matches of a kind — no `prompt_*`-prefixed column, or no
`*_completions`-suffixed column other than the renamed prompt column;
with several matches of a kind it silently uses the first instead of
raising; a raw table with exactly one `prompt_*` column and exactly one
distinct `*_completions` column (and a human table carrying `id` and
`source`) normalizes successfully, renaming them to `prompt` and
`completions`. -/
theorem normalize_schema_errors :
    (∀ (human : DF) (s : Option Nat) (df : DF),
        df.cols.filter (fun c => pyStartsWith c "prompt_") = [] →
        normalizeDF human s df = .error .indexError) ∧
    (∀ (human : DF) (s : Option Nat) (df : DF) (c1 : String) (r1 : List String),
        df.cols.filter (fun c => pyStartsWith c "prompt_") = c1 :: r1 →
        df.cols.filter (fun c => pyEndsWith c "_completions") = [] →
        normalizeDF human s df = .error .indexError) ∧
    (∀ (human : DF) (s : Option Nat) (df : DF) (c1 c2 : String),
        df.cols.filter (fun c => pyStartsWith c "prompt_") = [c1] →
        df.cols.filter (fun c => pyEndsWith c "_completions") = [c2] →
        c1 ≠ c2 → "id" ∈ human.cols → "source" ∈ human.cols →
        ∃ out, normalizeDF human s df = .ok out ∧
          "prompt" ∈ out.cols ∧ "completions" ∈ out.cols ∧ c2 ∉ out.cols) := by
  have htrunc : ∀ (s : Option Nat) (df : DF),
      ∃ df', (if subsetTruthy s then df.takeRows (s.getD 0 + 1) else df) = df' ∧
        df'.cols = df.cols := by
    intro s df
    refine ⟨_, rfl, ?_⟩
    split <;> rfl
  refine ⟨?_, ?_, ?_⟩
  · intro human s df hpc
    obtain ⟨df', hdf', hdcols⟩ := htrunc s df
    unfold normalizeDF
    rw [hdf']
    simp only [bind, Except.bind]
    rw [show df'.cols.filter (fun c => pyStartsWith c "prompt_") = [] from by
      rw [hdcols]; exact hpc]
  · intro human s df c1 r1 hpc hmc
    obtain ⟨df', hdf', hdcols⟩ := htrunc s df
    have hc1mem : c1 ∈ df'.cols := by
      rw [hdcols]
      exact (List.mem_filter.mp (hpc ▸ List.mem_cons_self c1 r1)).1
    unfold normalizeDF
    rw [hdf']
    simp only [bind, Except.bind]
    rw [show df'.cols.filter (fun c => pyStartsWith c "prompt_") = c1 :: r1 from by
      rw [hdcols]; exact hpc]
    simp only []
    rw [filter_compl_after_prompt_steps df' c1 _ hc1mem, hdcols, hmc]
    simp
  · intro human s df c1 c2 hpc hmc hne hid hsrc
    obtain ⟨df', hdf', hdcols⟩ := htrunc s df
    have hc1mem : c1 ∈ df'.cols := by
      rw [hdcols]
      exact (List.mem_filter.mp (hpc ▸ List.mem_cons_self c1 [])).1
    have hc2props := List.mem_filter.mp (hmc ▸ List.mem_cons_self c2 [])
    have hc2mem : c2 ∈ df'.cols := by rw [hdcols]; exact hc2props.1
    have hc2end : pyEndsWith c2 "_completions" = true := hc2props.2
    have hmid : ((df'.setColConst "prompt_number"
          (.vstr ((c1.splitOn "_").getD 1 ""))).renameCol c1 "prompt").cols.filter
        (fun c => pyEndsWith c "_completions") = [c2] := by
      rw [filter_compl_after_prompt_steps df' c1 _ hc1mem, hdcols, hmc]
      rw [List.filter_cons, if_pos (by simpa using Ne.symm hne)]
      rfl
    have hall : (["id", "source"].all (fun c => c ∈ human.cols)) = true := by
      simp [hid, hsrc]
    unfold normalizeDF
    rw [hdf']
    simp only [bind, Except.bind]
    rw [show df'.cols.filter (fun c => pyStartsWith c "prompt_") = [c1] from by
      rw [hdcols]; exact hpc]
    simp only []
    rw [hmid]
    simp only []
    unfold DF.select
    rw [if_pos hall]
    refine ⟨_, rfl, ?_, ?_, ?_⟩
    · -- "prompt" survives into the final column list
      refine mem_cols_leftMerge _ _ ?_
      refine mem_cols_renameCol_of_ne _ ?_ ?_
      · refine mem_cols_setColConst _ _ _ ?_
        exact mem_cols_renameCol_new _ "prompt" (mem_cols_setColConst _ _ _ hc1mem)
      · intro h
        rw [← h] at hc2end
        exact absurd hc2end (by decide)
    · -- "completions" is the renamed c2
      refine mem_cols_leftMerge _ _ ?_
      refine mem_cols_renameCol_new _ "completions" ?_
      refine mem_cols_setColConst _ _ _ ?_
      exact mem_cols_renameCol_of_ne _ (mem_cols_setColConst _ _ _ hc2mem) (Ne.symm hne)
    · -- c2 itself is gone
      intro hmem
      unfold leftMergeOnId at hmem
      rcases List.mem_append.mp hmem with hL | hR
      · exact old_not_mem_cols_renameCol _ (fun h => by
          rw [← h] at hc2end
          exact absurd hc2end (by decide)) hL
      · have hmem2 := (List.mem_filter.mp hR).1
        have hdis : c2 = "id" ∨ c2 = "source" := by
          simpa using (List.mem_filter.mp hmem2).1
        rcases hdis with h | h <;>
          (rw [h] at hc2end; exact absurd hc2end (by decide))

/-- C3 counterexample: a raw table with *two* `prompt_*` columns (and one
completions column) normalizes without error — the first prompt column is
used silently, refuting the claim that more than one match raises. -/
theorem normalize_two_prompt_columns_counterexample :
    (normalizeDF exHuman12 none exTwoPrompt).isOk = true ∧
    (exTwoPrompt.cols.filter (fun c => pyStartsWith c "prompt_")).length = 2 := by
  constructor
  · rfl
  · decide

/-- Witness for C3 (amended) on concrete tables: part one on a table with
no prompt column, part three on a well-formed table. -/
theorem normalize_schema_errors_witness :
    normalizeDF exHuman12 none { cols := ["id", "m_completions"], rows := [] } =
      .error .indexError ∧
    ∃ out, normalizeDF exHuman12 none exT0 = .ok out ∧
      "prompt" ∈ out.cols ∧ "completions" ∈ out.cols ∧ "m0_completions" ∉ out.cols := by
  constructor
  · exact normalize_schema_errors.1 exHuman12 none _ (by decide)
  · exact normalize_schema_errors.2.2 exHuman12 none exT0 "prompt_1" "m0_completions"
      (by decide) (by decide) (by decide) (by decide) (by decide)

/-- Characterization of a successful `combine_data` run in terms of its
normalized tables and reference table. -/
theorem combine_data_ok_elim (ai : List DF) (human : DF) (s : Option Nat)
    (res : CombineResult) (norm : List DF) (ref : DF)
    (hnorm : mapExcept (normalizeDF human s) ai = .ok norm)
    (href : norm.get? 1 = some ref)
    (hok : combine_data ai human s = .ok res) :
    "id" ∈ human.cols ∧
    res.humanPart =
      ((human.filterRows (fun r => rowGet r "id" ∈ ref.col "id")).setColConst "model"
        (.vstr "human")).renameCol "human_completions" "completions" ∧
    res.aiAfter = norm ∧
    res.combined = concatDFs (res.humanPart :: norm) := by
  unfold combine_data at hok
  rw [hnorm] at hok
  simp only [bind, Except.bind] at hok
  rw [href] at hok
  by_cases hid : "id" ∈ human.cols
  · simp only [if_pos hid, Except.ok.injEq] at hok
    subst hok
    exact ⟨hid, rfl, rfl, rfl⟩
  · simp [if_neg hid] at hok

/-- C1 (amended): the human rows of the combined table are exactly the
rows of the human table whose id occurs in the id column of the
*normalized* (hence possibly subset-truncated) AI table at index 1 of the
list, in their original order; they form the leading block of the
combined table, followed by the normalized AI rows. -/
theorem combine_data_human_id_restriction
    (ai : List DF) (human : DF) (s : Option Nat) (res : CombineResult)
    (norm : List DF) (ref : DF)
    (hnorm : mapExcept (normalizeDF human s) ai = .ok norm)
    (href : norm.get? 1 = some ref)
    (hok : combine_data ai human s = .ok res) :
    res.humanPart.col "id" =
      (human.rows.filter (fun r => rowGet r "id" ∈ ref.col "id")).map (fun r => rowGet r "id") ∧
    res.combined.rows = res.humanPart.rows ++ norm.flatMap DF.rows := by
  obtain ⟨hid, hhp, hai, hc⟩ := combine_data_ok_elim ai human s res norm ref hnorm href hok
  constructor
  · rw [hhp]
    unfold DF.col DF.renameCol DF.setColConst DF.filterRows
    simp only [List.map_map]
    refine List.map_congr_left (fun r hr => ?_)
    show rowGet (renameRow (setRowVal r "model" (.vstr "human"))
      "human_completions" "completions") "id" = rowGet r "id"
    rw [rowGet_renameRow_ne _ (by decide) (by decide), rowGet_setRowVal_ne _ _ (by decide)]
  · rw [hc]
    unfold concatDFs
    simp

/-- C1 counterexample: human id 3 occurs in the id column of the supplied
AI table at index 1, yet with `subset=1` (truncation to the first two
rows) the combined output contains no human row at all — the claim's
"exactly the ids of the supplied table at index 1" fails once truncation
is in play. -/
theorem combine_data_raw_reference_counterexample :
    (combine_data [exT0, exT1] exHuman3 (some 1)).toOption.map
      (fun r => r.humanPart.rows) = some [] ∧
    Val.vint 3 ∈ exT1.col "id" ∧
    exHuman3.rows.length = 1 := by
  refine ⟨rfl, by decide, rfl⟩

/-- Witness for C1 (amended) on concrete tables. -/
theorem combine_data_human_id_restriction_witness :
    ∃ (res : CombineResult) (norm : List DF) (ref : DF),
      mapExcept (normalizeDF exHuman12 none) [exT0, exT1] = .ok norm ∧
      norm.get? 1 = some ref ∧
      combine_data [exT0, exT1] exHuman12 none = .ok res ∧
      res.humanPart.col "id" =
        (exHuman12.rows.filter (fun r => rowGet r "id" ∈ ref.col "id")).map
          (fun r => rowGet r "id") :=
  ⟨_, _, _, rfl, rfl, rfl,
    (combine_data_human_id_restriction [exT0, exT1] exHuman12 none _ _ _ rfl rfl rfl).1⟩

/-- C2 (amended): when no human row's id occurs in the reference table's
id column, `combine_data` does not fail — it succeeds and returns a
combined table whose human part has zero rows (the source defines no
`AlignmentError` and raises nothing in this situation). -/
theorem combine_data_no_match_empty_human
    (ai : List DF) (human : DF) (s : Option Nat) (norm : List DF) (ref : DF)
    (hnorm : mapExcept (normalizeDF human s) ai = .ok norm)
    (href : norm.get? 1 = some ref)
    (hid : "id" ∈ human.cols)
    (hnone : ∀ r ∈ human.rows, rowGet r "id" ∉ ref.col "id") :
    ∃ res, combine_data ai human s = .ok res ∧ res.humanPart.rows = [] := by
  unfold combine_data
  rw [hnorm]
  simp only [bind, Except.bind]
  rw [href]
  simp only [if_pos hid]
  refine ⟨_, rfl, ?_⟩
  show ((((human.filterRows _).setColConst "model" _).renameCol _ _).rows) = []
  unfold DF.renameCol DF.setColConst DF.filterRows
  simp only [List.map_eq_nil_iff]
  exact List.filter_eq_nil_iff.mpr (fun r hr => by simpa using hnone r hr)

/-- C2 counterexample: with a human table whose only id (9) matches no
AI id, `combine_data` returns `ok` with an empty human part instead of
failing with an `AlignmentError`. -/
theorem combine_data_no_match_counterexample :
    (combine_data [exT0, exT1] exHuman9 none).toOption.map
      (fun r => (r.humanPart.rows, r.combined.rows.length)) = some ([], 6) := by
  rfl

/-- Witness for C2 (amended) on concrete tables. -/
theorem combine_data_no_match_empty_human_witness :
    ∃ res, combine_data [exT0, exT1] exHuman9 none = .ok res ∧ res.humanPart.rows = [] :=
  combine_data_no_match_empty_human [exT0, exT1] exHuman9 none _ _ rfl rfl
    (by decide) (by decide)

/-- C9 counterexample: `create_prompt` hands back the caller's dataframe
with a new column added — the caller-visible dataframe after the call
differs from the one supplied; and `combine_data` leaves the caller's
`ai_dfs` list holding the normalized tables, not the supplied ones. -/
theorem mutation_counterexample :
    (create_prompt exDocs "stories" 1).toOption.map Prod.snd = some exDocsMutated ∧
    exDocsMutated ≠ exDocs ∧
    (combine_data [exT0, exT1] exHuman12 none).toOption.map CombineResult.aiAfter
      ≠ some [exT0, exT1] := by
  refine ⟨rfl, by decide, by decide⟩

/-- C9 (amended): `create_prompt` returns the caller's dataframe mutated
in place — the result and the caller-visible after-state are the same
object, with the `prompt_{n}` column added (or overwritten in place) —
and `combine_data` reassigns every slot of the caller's `ai_dfs` list to
the newly built normalized tables; the human dataframe and the original
element tables themselves are not modified (both are copied before
editing). -/
theorem mutation_ownership :
    (∀ (df : DF) (datafile : String) (n : Int) (res after : DF),
        create_prompt df datafile n = .ok (res, after) →
        after = res ∧
        after.cols = (if ("prompt_" ++ toString n) ∈ df.cols then df.cols
          else df.cols ++ ["prompt_" ++ toString n])) ∧
    (∀ (ai : List DF) (human : DF) (s : Option Nat) (res : CombineResult),
        combine_data ai human s = .ok res →
        ∃ norm, mapExcept (normalizeDF human s) ai = .ok norm ∧ res.aiAfter = norm) := by
  constructor
  · intro df datafile n res after h
    unfold create_prompt at h
    cases hl : prompts.lookup (datafile ++ "_" ++ toString n) with
    | none => rw [hl] at h; simp [bind, Except.bind] at h
    | some tpl =>
      rw [hl] at h
      simp only [bind, Except.bind] at h
      by_cases hs : "source" ∈ df.cols
      · rw [if_pos hs] at h
        cases hv : (df.col "source").mapM (promptCat tpl) with
        | error e => rw [hv] at h; simp at h
        | ok vals =>
          rw [hv] at h
          simp only [Except.ok.injEq, Prod.mk.injEq] at h
          obtain ⟨h1', h2'⟩ := h
          subst h1'
          subst h2'
          exact ⟨rfl, rfl⟩
      · rw [if_neg hs] at h
        simp at h
  · intro ai human s res h
    unfold combine_data at h
    cases hn : mapExcept (normalizeDF human s) ai with
    | error e => rw [hn] at h; simp [bind, Except.bind] at h
    | ok norm =>
      rw [hn] at h
      simp only [bind, Except.bind] at h
      refine ⟨norm, rfl, ?_⟩
      cases hr : norm.get? 1 with
      | none => rw [hr] at h; simp at h
      | some ref =>
        rw [hr] at h
        simp only [] at h
        by_cases hid : "id" ∈ human.cols
        · rw [if_pos hid] at h
          simp only [Except.ok.injEq] at h
          rw [← h]
        · rw [if_neg hid] at h
          simp at h

/-- Witness for C9 (amended) on concrete tables. -/
theorem mutation_ownership_witness :
    (∃ res after, create_prompt exDocs "stories" 1 = .ok (res, after) ∧ after = res ∧
      after.cols = (if ("prompt_" ++ toString (1 : Int)) ∈ exDocs.cols then exDocs.cols
        else exDocs.cols ++ ["prompt_" ++ toString (1 : Int)])) ∧
    (∃ res norm, combine_data [exT0, exT1] exHuman12 none = .ok res ∧
      mapExcept (normalizeDF exHuman12 none) [exT0, exT1] = .ok norm ∧
      res.aiAfter = norm) := by
  constructor
  · obtain ⟨ha, hc⟩ := mutation_ownership.1 exDocs "stories" 1 _ _ rfl
    exact ⟨_, _, rfl, ha, hc⟩
  · obtain ⟨norm, hn, ha⟩ := mutation_ownership.2 [exT0, exT1] exHuman12 none _ rfl
    exact ⟨_, norm, rfl, hn, ha⟩

/-- `mergeSort` under `strLe` produces a `≤`-sorted list of strings. -/
theorem sorted_mergeSort_strLe (l : List String) :
    List.Sorted (· ≤ ·) (l.mergeSort strLe) := by
  have h := @List.sorted_mergeSort String strLe
    (fun a b c hab hbc => by
      simp only [strLe, decide_eq_true_eq] at *
      exact le_trans hab hbc)
    (fun a b => by
      simp only [strLe, Bool.or_eq_true, decide_eq_true_eq]
      exact le_total a b) l
  exact h.imp (fun hab => by simpa [strLe] using hab)

/-- `mergeSort` under `strLe` is invariant under permutation of its
input. -/
theorem mergeSort_strLe_eq_of_perm {l₁ l₂ : List String} (h : l₁.Perm l₂) :
    l₁.mergeSort strLe = l₂.mergeSort strLe :=
  List.eq_of_perm_of_sorted
    (((List.mergeSort_perm l₁ strLe).trans h).trans (List.mergeSort_perm l₂ strLe).symm)
    (sorted_mergeSort_strLe l₁) (sorted_mergeSort_strLe l₂)

/-- C6 counterexample: with a reverse-lexicographic directory enumeration,
`get_paths` returns an unsorted path list, refuting the claim that the
result is always sorted lexicographically. -/
theorem get_paths_unsorted_counterexample :
    get_paths exFsUnsorted ["m"] "d" (some ⟨true, "1"⟩) none =
      ["m/b_temp1.ndjson", "m/a_temp1.ndjson"] ∧
    ¬ (("m/b_temp1.ndjson" : String) ≤ "m/a_temp1.ndjson") := by
  constructor
  · rfl
  · rw [String.le_iff_toList_le]
    decide

/-- C6 (amended): the `load_data` resolver sorts: its result is
lexicographically sorted, and invariant both under permutation of the
directory enumeration and under permutation of the models list; the
`get_paths` resolver applies no sorting and returns paths in models-list
order, each directory in enumeration order (shown unrestricted, i.e. with
both selectors absent). -/
theorem path_resolver_sorting :
    (∀ (listing listing' : List (String × List String)) (models : List String) (dataset : String),
        listing.Perm listing' →
        load_data_paths listing models dataset = load_data_paths listing' models dataset) ∧
    (∀ (listing : List (String × List String)) (models models' : List String) (dataset : String),
        models.Perm models' →
        load_data_paths listing models dataset = load_data_paths listing models' dataset) ∧
    (∀ (listing : List (String × List String)) (models : List String) (dataset : String),
        List.Sorted (· ≤ ·) (load_data_paths listing models dataset)) ∧
    (∀ (fs : String → List String) (models : List String) (dataset : String),
        get_paths fs models dataset none none =
          models.flatMap (fun m => (fs m).map (fun f => m ++ "/" ++ f))) := by
  refine ⟨fun listing listing' models dataset h => ?_,
          fun listing models models' dataset h => ?_,
          fun listing models dataset => sorted_mergeSort_strLe _,
          fun fs models dataset => rfl⟩
  · exact mergeSort_strLe_eq_of_perm (List.Perm.flatMap_right _ h)
  · unfold load_data_paths
    have hpt : ∀ p : String × List String,
        (if p.1 ∈ models then
          (p.2.filter (fun f => pyInStr dataset f)).map (fun f => p.1 ++ "/" ++ f)
        else []) =
        (if p.1 ∈ models' then
          (p.2.filter (fun f => pyInStr dataset f)).map (fun f => p.1 ++ "/" ++ f)
        else []) := fun p => if_congr h.mem_iff rfl rfl
    rw [List.flatMap_congr (fun p _ => hpt p)]

/-- Witness for C6 (amended): concrete listings that are permutations of
each other resolve to the same sorted list. -/
theorem path_resolver_sorting_witness :
    load_data_paths exListing ["m", "n"] "d" = load_data_paths exListingPerm ["m", "n"] "d" ∧
    List.Sorted (· ≤ ·) (load_data_paths exListing ["m", "n"] "d") :=
  ⟨path_resolver_sorting.1 exListing exListingPerm ["m", "n"] "d" (by decide),
   path_resolver_sorting.2.2.1 exListing ["m", "n"] "d"⟩

/-- Witness for C7 (amended): prompt number 3 shadows any temperature. -/
theorem get_paths_prompt_number_precedence_witness :
    get_paths exFsPrompt0 ["m"] "d" (some ⟨true, "1"⟩) (some 3) =
      get_paths exFsPrompt0 ["m"] "d" none (some 3) ∧
    get_paths exFsPrompt0 ["m"] "d" (some ⟨true, "1"⟩) (some 3) =
      ["m"].flatMap (fun m =>
        ((exFsPrompt0 m).filter (fun f =>
          pyStartsWith f ("d" ++ "_prompt_" ++ toString (3 : Int)))).map (fun f => m ++ "/" ++ f)) :=
  get_paths_prompt_number_precedence exFsPrompt0 ["m"] "d" (some ⟨true, "1"⟩) none 3 (by decide)

end STD
